import Mathlib

/-!
Shallow embedding of the book review lifecycle of the textbook assessment
backend: the controllers `assignReviewers`, `submitReview`, `getAggregateStats`,
`recordDecision` (book/review controllers) and `updateAssignment`
(assignment controller), together with the data rows they read and write.

Databases rows become lists in a `State` record; Prisma reads/writes become
list operations; each request handler becomes a function
`State → args → Except Err State` (every error path of the handlers occurs
before the first write, so an `Except.error` result faithfully leaves the
state unchanged).  JS numbers are modelled by `Num` (a rational or NaN);
a request-supplied score value is a `JsVal` (a number or a non-number),
matching the handler's `typeof` check.  `new Date()` is modelled by a
`clock` counter in the state that strictly increases across requests.
-/

namespace TextbookReview

/-- Book lifecycle status (enum `BookStatus` in the controllers). -/
inductive BookStatus where
  | PENDING_REVIEW
  | UNDER_REVIEW
  | REVIEW_COMPLETED
  | APPROVED
  | REJECTED
  | NEEDS_REVISION
deriving DecidableEq

/-- Assignment status (enum `AssignmentStatus` in the review controller). -/
inductive AssignmentStatus where
  | PENDING
  | IN_PROGRESS
  | COMPLETED
  | OVERDUE
deriving DecidableEq

/-- Committee decision values (enum `Decision` in the book controller). -/
inductive Decision where
  | APPROVED
  | REJECTED
  | NEEDS_REVISION
deriving DecidableEq

/-- User role (enum `UserRole`). -/
inductive UserRole where
  | ADMIN
  | SECRETARIAT
  | REVIEWER
  | COMMITTEE
deriving DecidableEq

/-- A JS number: either an actual (rational-modelled) value or NaN. -/
inductive Num where
  | real (q : ℚ)
  | nan
deriving DecidableEq

/-- A JS value arriving in a request's `scores` map: a number
(`typeof score === 'number'`, which includes NaN) or anything else. -/
inductive JsVal where
  | num (n : Num)
  | other
deriving DecidableEq

structure User where
  id : Nat
  role : UserRole
deriving DecidableEq

structure Book where
  id : Nat
  uploadedBy : Nat
  status : BookStatus
deriving DecidableEq

structure Criterion where
  code : String
  weight : ℚ
deriving DecidableEq

structure Assignment where
  id : Nat
  bookId : Nat
  reviewerId : Nat
  assignedBy : Nat
  dueDate : Nat
  status : AssignmentStatus
deriving DecidableEq

structure Review where
  assignmentId : Nat
  reviewerId : Nat
  scores : List (String × Num)
  comments : List (String × String)
  draftFlag : Bool
  submittedAt : Nat
deriving DecidableEq

/-- Per-criterion statistics stored in `AggregateResult.stats`. -/
structure CritStats where
  mean : Num
  median : Num
  variance : Num
  min : Num
  max : Num
  count : Nat
deriving DecidableEq

/-- The data the templated `summaryText` string embeds
(overall mean, strengths list, weaknesses list). -/
structure Summary where
  overallMean : Num
  strengths : List String
  weaknesses : List String
deriving DecidableEq

structure AggregateResult where
  bookId : Nat
  computedAt : Nat
  stats : List (String × CritStats)
  summary : Summary
deriving DecidableEq

structure CommitteeDecision where
  bookId : Nat
  decidedBy : Nat
  decision : Decision
  rationale : String
  decidedAt : Nat
deriving DecidableEq

/-- The relevant database tables, a fresh-id counter for created rows, and a
clock standing for the strictly increasing wall time of successive requests. -/
structure State where
  users : List User
  books : List Book
  criteria : List Criterion
  assignments : List Assignment
  reviews : List Review
  aggregateResults : List AggregateResult
  committeeDecisions : List CommitteeDecision
  nextId : Nat
  clock : Nat
deriving DecidableEq

/-- The error responses (`AppError` messages) the handlers produce. -/
inductive Err where
  | bookNotFound
  | bookNotPending
  | reviewersNotFound
  | assignmentNotFound
  | notYourAssignment
  | invalidCriterionCode (code : String)
  | invalidScore (code : String)
  | noCompletedReviews
  | bookNotReviewCompleted
  | noFieldsToUpdate
deriving DecidableEq

deriving instance DecidableEq for Except

/-! ## JS-number primitives used by the handlers -/

/-- JS `a + b` on numbers: NaN is absorbing. -/
def nadd : Num → Num → Num
  | .real a, .real b => .real (a + b)
  | _, _ => .nan

/-- JS `a - b` on numbers. -/
def nsub : Num → Num → Num
  | .real a, .real b => .real (a - b)
  | _, _ => .nan

/-- JS `Math.pow(x, 2)`. -/
def npow2 : Num → Num
  | .real a => .real (a ^ 2)
  | .nan => .nan

/-- JS `Math.min(a, b)`: NaN if either argument is NaN. -/
def nmin : Num → Num → Num
  | .real a, .real b => .real (min a b)
  | _, _ => .nan

/-- JS `Math.max(a, b)`: NaN if either argument is NaN. -/
def nmax : Num → Num → Num
  | .real a, .real b => .real (max a b)
  | _, _ => .nan

/-- JS `n < c` against a constant: false when `n` is NaN. -/
def numLtQ : Num → ℚ → Bool
  | .real a, c => decide (a < c)
  | .nan, _ => false

/-- JS `n > c` against a constant: false when `n` is NaN. -/
def numGtQ : Num → ℚ → Bool
  | .real a, c => decide (c < a)
  | .nan, _ => false

/-- JS `x / n` where `n` is an array length: `0 / 0` is NaN.  (For nonzero
numerators JS would give Infinity at `n = 0`, but every division the handlers
perform with a zero denominator has an empty-`reduce` zero numerator.) -/
def jsDivN (v : Num) (n : Nat) : Num :=
  if n = 0 then .nan
  else match v with
    | .real q => .real (q / (n : ℚ))
    | .nan => .nan

/-! ## Helper list operations standing for Prisma updates -/

/-- `prisma.book.update({ where: { id }, data: { status } })`. -/
def setBookStatus (books : List Book) (bid : Nat) (st : BookStatus) : List Book :=
  books.map fun b => if b.id = bid then { b with status := st } else b

/-- `prisma.assignment.update({ where: { id }, data: { status } })`. -/
def setAssignmentStatus (asgs : List Assignment) (aid : Nat) (st : AssignmentStatus) :
    List Assignment :=
  asgs.map fun a => if a.id = aid then { a with status := st } else a

/-- Replace the first element satisfying `p` by `f` of it (row update by id). -/
def updateFirst (p : α → Bool) (f : α → α) : List α → List α
  | [] => []
  | x :: xs => if p x then f x :: xs else x :: updateFirst p f xs

/-! ## assignReviewers (book controller) -/

/-- `assignReviewers`: requires the book to exist and be `PENDING_REVIEW`,
requires every requested id to be a `REVIEWER` user, then creates one
`PENDING` assignment per reviewer not already assigned to the book
(duplicates judged against the assignment list fetched with the book at the
start of the request), and unconditionally sets the book `UNDER_REVIEW`. -/
def assignReviewers (s : State) (actor bid : Nat) (reviewerIds : List Nat)
    (dueDate : Nat) : Except Err State :=
  match s.books.find? (fun b => decide (b.id = bid)) with
  | none => .error .bookNotFound
  | some book =>
    if book.status ≠ .PENDING_REVIEW then .error .bookNotPending
    else
      -- prisma.user.findMany({ where: { id: { in: reviewer_ids }, role: REVIEWER } })
      let matched := s.users.filter fun u =>
        reviewerIds.contains u.id && decide (u.role = .REVIEWER)
      if matched.length ≠ reviewerIds.length then .error .reviewersNotFound
      else
        let existing := s.assignments.filter fun a => decide (a.bookId = bid)
        let step := fun (acc : List Assignment × Nat) (rid : Nat) =>
          if existing.any (fun a => decide (a.reviewerId = rid)) then acc
          else (acc.1 ++ [⟨acc.2, bid, rid, actor, dueDate, .PENDING⟩], acc.2 + 1)
        let created := reviewerIds.foldl step ([], s.nextId)
        .ok { s with
          assignments := s.assignments ++ created.1
          books := setBookStatus s.books bid .UNDER_REVIEW
          nextId := created.2
          clock := s.clock + 1 }

/-! ## submitReview (review controller) -/

/-- The score-validation loop of `submitReview`: for each key in insertion
order, reject unknown criterion codes, then reject values failing
`typeof score !== 'number' || score < 1 || score > 5`.  On success the
entries are returned with their (necessarily numeric) values. -/
def validateScores (codes : List String) :
    List (String × JsVal) → Except Err (List (String × Num))
  | [] => .ok []
  | e :: rest =>
    if ¬ codes.contains e.1 then .error (.invalidCriterionCode e.1)
    else match e.2 with
      | .other => .error (.invalidScore e.1)
      | .num n =>
        if numLtQ n 1 || numGtQ n 5 then .error (.invalidScore e.1)
        else (validateScores codes rest).map (fun tail => (e.1, n) :: tail)

/-- The review upsert of `submitReview`: if this reviewer already has a review
on the assignment, overwrite its scores/comments/draft flag/timestamp in
place; otherwise create a fresh review row. -/
def upsertReview (reviews : List Review) (clock aid uid : Nat)
    (vscores : List (String × Num)) (comments : List (String × String))
    (draftFlag : Bool) : List Review :=
  if reviews.any (fun r => decide (r.assignmentId = aid) && decide (r.reviewerId = uid)) then
    updateFirst (fun r => decide (r.assignmentId = aid) && decide (r.reviewerId = uid))
      (fun r => { r with scores := vscores, comments := comments,
                         draftFlag := draftFlag, submittedAt := clock })
      reviews
  else
    reviews ++ [⟨aid, uid, vscores, comments, draftFlag, clock⟩]

/-- `submitReview`: find the assignment, check the caller is its reviewer,
validate the scores, upsert the review; when `draftFlag` is false, mark the
assignment `COMPLETED` and, if every assignment of the book is then
`COMPLETED`, set the book `REVIEW_COMPLETED` (no check of the book's current
status is made). -/
def submitReview (s : State) (uid aid : Nat) (scores : List (String × JsVal))
    (comments : List (String × String)) (draftFlag : Bool) : Except Err State :=
  match s.assignments.find? (fun a => decide (a.id = aid)) with
  | none => .error .assignmentNotFound
  | some assignment =>
    if assignment.reviewerId ≠ uid then .error .notYourAssignment
    else match validateScores (s.criteria.map (·.code)) scores with
      | .error e => .error e
      | .ok vscores =>
        let s1 := { s with
          reviews := upsertReview s.reviews s.clock aid uid vscores comments draftFlag }
        if draftFlag then .ok { s1 with clock := s1.clock + 1 }
        else
          let s2 := { s1 with
            assignments := setAssignmentStatus s1.assignments aid .COMPLETED }
          let allAssignments := s2.assignments.filter fun a =>
            decide (a.bookId = assignment.bookId)
          let allCompleted := allAssignments.all fun a => decide (a.status = .COMPLETED)
          let s3 :=
            if allCompleted then
              { s2 with books := setBookStatus s2.books assignment.bookId .REVIEW_COMPLETED }
            else s2
          .ok { s3 with clock := s3.clock + 1 }

/-! ## getAggregateStats (book controller) -/

/-- `allScores[code].push(v)` on a JS object: append to the key's array if the
key exists (object keys are unique), else add the key at the end
(object insertion order). -/
def pushScore : List (String × List Num) → String → Num → List (String × List Num)
  | [], k, v => [(k, [v])]
  | (k', l) :: rest, k, v =>
    if k' = k then (k', l ++ [v]) :: rest else (k', l) :: pushScore rest k v

/-- The collection loop of `getAggregateStats`: for each review, push each of
its scores into the per-criterion array, keys in first-appearance order. -/
def collectScores (revs : List Review) : List (String × List Num) :=
  revs.foldl (fun acc r => r.scores.foldl (fun m kv => pushScore m kv.1 kv.2) acc) []

/-- Insert into an ascending-sorted list of rationals. -/
def insertSorted (x : ℚ) : List ℚ → List ℚ
  | [] => [x]
  | y :: ys => if x ≤ y then x :: y :: ys else y :: insertSorted x ys

/-- Ascending sort of rationals (insertion sort). -/
def sortQ : List ℚ → List ℚ
  | [] => []
  | x :: xs => insertSorted x (sortQ xs)

/-- A score as an actual number, if it is one. -/
def toQ : Num → Option ℚ
  | .real q => some q
  | .nan => none

/-- JS default `Array.prototype.sort()` on the score array.  The default
comparator sorts by the strings `toString` produces; on numbers in `[1, 5]`
(single-digit integer part, no exponent, no trailing zeros) that string order
coincides with numeric order, and `"NaN"` sorts after every digit string, so
the result is the real scores in ascending numeric order followed by the
NaNs. -/
def jsSortNums (l : List Num) : List Num :=
  let rs := l.filterMap toQ
  (sortQ rs).map Num.real ++ List.replicate (l.length - rs.length) Num.nan

/-- `Math.min(...scores)` over the (always nonempty) score array.
(`Math.min()` of no arguments is Infinity; that case is unreachable because
every key of `allScores` is created with one score already pushed.) -/
def jsMinList : List Num → Num
  | [] => .nan
  | h :: t => t.foldl nmin h

/-- `Math.max(...scores)` over the (always nonempty) score array. -/
def jsMaxList : List Num → Num
  | [] => .nan
  | h :: t => t.foldl nmax h

/-- The per-criterion statistics block of `getAggregateStats`.  The source
sorts the array in place before indexing the median; the later variance /
min / max passes therefore run over the sorted array, which holds the same
multiset of values, so they are computed here from the original list. -/
def computeStats (l : List Num) : CritStats :=
  let count := l.length
  let mean := jsDivN (l.foldl nadd (Num.real 0)) count
  let median := (jsSortNums l).getD (count / 2) Num.nan
  let variance :=
    jsDivN (l.foldl (fun acc b => nadd acc (npow2 (nsub b mean))) (Num.real 0)) count
  ⟨mean, median, variance, jsMinList l, jsMaxList l, count⟩

/-- The reviews `getAggregateStats` aggregates: the reviews of the book's
assignments, flattened in assignment order, draft reviews dropped. -/
def nonDraftReviews (s : State) (bid : Nat) : List Review :=
  ((s.assignments.filter (fun a => decide (a.bookId = bid))).flatMap
    (fun a => s.reviews.filter (fun r => decide (r.assignmentId = a.id)))).filter
    (fun r => !r.draftFlag)

/-- `criteriaStats`: per-criterion statistics, keys in first-appearance order. -/
def computeBookStats (s : State) (bid : Nat) : List (String × CritStats) :=
  (collectScores (nonDraftReviews s bid)).map fun p => (p.1, computeStats p.2)

/-- The comparator `(a, b) => b.mean - a.mean`: `a` stays before `b` unless
`a.mean < b.mean` as numbers.  A NaN comparator result leaves the relative
order unchanged (V8's behaviour), hence `true` on any NaN operand. -/
def meanGeB : Num → Num → Bool
  | .real x, .real y => decide (y ≤ x)
  | _, _ => true

/-- Stable insertion into a descending-by-mean list. -/
def insertByMean (x : String × CritStats) :
    List (String × CritStats) → List (String × CritStats)
  | [] => [x]
  | y :: ys => if meanGeB x.2.mean y.2.mean then x :: y :: ys else y :: insertByMean x ys

/-- `sortedCriteria`: the stats entries sorted by mean descending (stable). -/
def sortByMeanDesc : List (String × CritStats) → List (String × CritStats)
  | [] => []
  | x :: xs => insertByMean x (sortByMeanDesc xs)

/-- The data of the templated summary string: overall mean
(`sum of means / number of criteria`, NaN when there are none), top-3 codes
by mean, and bottom-3 codes (`slice(-3).reverse()`). -/
def computeSummary (criteriaStats : List (String × CritStats)) : Summary :=
  let overallMean :=
    jsDivN (criteriaStats.foldl (fun acc p => nadd acc p.2.mean) (Num.real 0))
      criteriaStats.length
  let sorted := sortByMeanDesc criteriaStats
  ⟨overallMean, (sorted.take 3).map (·.1),
    ((sorted.drop (sorted.length - 3)).reverse).map (·.1)⟩

/-- `prisma.aggregateResult.upsert` keyed on `(book_id, computed_at = now)`:
update the row with exactly this timestamp if one exists, else create one. -/
def upsertAggregate (rows : List AggregateResult) (bid t : Nat)
    (stats : List (String × CritStats)) (summary : Summary) : List AggregateResult :=
  if rows.any (fun r => decide (r.bookId = bid) && decide (r.computedAt = t)) then
    updateFirst (fun r => decide (r.bookId = bid) && decide (r.computedAt = t))
      (fun r => { r with stats := stats, summary := summary }) rows
  else rows ++ [⟨bid, t, stats, summary⟩]

/-- `getAggregateStats`: requires the book to exist and at least one of its
assignments to be `COMPLETED` (the guard counts assignments, not reviews),
then aggregates all non-draft reviews and upserts an `AggregateResult` row
stamped with the current time. -/
def getAggregateStats (s : State) (bid : Nat) : Except Err State :=
  match s.books.find? (fun b => decide (b.id = bid)) with
  | none => .error .bookNotFound
  | some _ =>
    let completed := (s.assignments.filter fun a =>
      decide (a.bookId = bid) && decide (a.status = .COMPLETED)).length
    if completed = 0 then .error .noCompletedReviews
    else
      let criteriaStats := computeBookStats s bid
      let summary := computeSummary criteriaStats
      .ok { s with
        aggregateResults := upsertAggregate s.aggregateResults bid s.clock criteriaStats summary
        clock := s.clock + 1 }

/-! ## recordDecision (book controller) -/

/-- The ternary
`decision === 'APPROVED' ? APPROVED : decision === 'REJECTED' ? REJECTED : NEEDS_REVISION`. -/
def decisionToStatus : Decision → BookStatus
  | .APPROVED => .APPROVED
  | .REJECTED => .REJECTED
  | .NEEDS_REVISION => .NEEDS_REVISION

/-- `recordDecision`: requires the book to exist and be `REVIEW_COMPLETED`,
creates a `CommitteeDecision` row, and sets the book's status to the status
matching the decision. -/
def recordDecision (s : State) (actor bid : Nat) (decision : Decision)
    (rationale : String) : Except Err State :=
  match s.books.find? (fun b => decide (b.id = bid)) with
  | none => .error .bookNotFound
  | some book =>
    if book.status ≠ .REVIEW_COMPLETED then .error .bookNotReviewCompleted
    else .ok { s with
      committeeDecisions := s.committeeDecisions ++ [⟨bid, actor, decision, rationale, s.clock⟩]
      books := setBookStatus s.books bid (decisionToStatus decision)
      clock := s.clock + 1 }

/-! ## updateAssignment (assignment controller) and uploadBook -/

/-- `updateAssignment`: overwrite due date and/or status directly, with no
consistency check against the book's state; rejects when no field is given
(and when the row does not exist, where `prisma.update` throws). -/
def updateAssignment (s : State) (aid : Nat) (dueDate? : Option Nat)
    (status? : Option AssignmentStatus) : Except Err State :=
  if dueDate?.isNone && status?.isNone then .error .noFieldsToUpdate
  else match s.assignments.find? (fun a => decide (a.id = aid)) with
    | none => .error .assignmentNotFound
    | some _ => .ok { s with
        assignments := s.assignments.map fun a =>
          if a.id = aid then
            { a with dueDate := dueDate?.getD a.dueDate, status := status?.getD a.status }
          else a
        clock := s.clock + 1 }

/-- `uploadBook`, reduced to the state it creates: a new book with
status `PENDING_REVIEW` (file and metadata handling are out of scope). -/
def uploadBook (s : State) (actor : Nat) : Except Err State :=
  .ok { s with
    books := s.books ++ [⟨s.nextId, actor, .PENDING_REVIEW⟩]
    nextId := s.nextId + 1
    clock := s.clock + 1 }

/-! ## Observation helpers -/

/-- The status of the book with the given id, if any. -/
def bookStatus (s : State) (bid : Nat) : Option BookStatus :=
  (s.books.find? (fun b => decide (b.id = bid))).map (·.status)

/-- The status of the assignment with the given id, if any. -/
def assignmentStatus (s : State) (aid : Nat) : Option AssignmentStatus :=
  (s.assignments.find? (fun a => decide (a.id = aid))).map (·.status)

/-- The score list the aggregation collects for criterion `c`:
each non-draft review's score for `c`, in review order. -/
def scoresFor (s : State) (bid : Nat) (c : String) : List Num :=
  (nonDraftReviews s bid).filterMap fun r => r.scores.lookup c

/-- The score array collected under key `c` (empty when the key is absent). -/
def getScores (m : List (String × List Num)) (c : String) : List Num :=
  (m.lookup c).getD []

/-- Two completed reviews of book 3 matching the spec's end-to-end scenario
(`CONT-1`: 4 and 2, `CONT-2`: 5 and 3), for the aggregation witness. -/
def c3S : State :=
  { users := [⟨7, .REVIEWER⟩, ⟨8, .REVIEWER⟩], books := [⟨3, 9, .REVIEW_COMPLETED⟩],
    criteria := [⟨"CONT-1", 1⟩, ⟨"CONT-2", 1⟩],
    assignments := [⟨5, 3, 7, 9, 14, .COMPLETED⟩, ⟨6, 3, 8, 9, 14, .COMPLETED⟩],
    reviews := [⟨5, 7, [("CONT-1", .real 4), ("CONT-2", .real 5)], [], false, 1⟩,
                ⟨6, 8, [("CONT-1", .real 2), ("CONT-2", .real 3)], [], false, 2⟩],
    aggregateResults := [], committeeDecisions := [], nextId := 20, clock := 3 }

/-- A submitted score value lying in the range `[1, 5]` (it must actually be a
number for that to make sense; NaN is not in the range). -/
def inRangeB : JsVal → Bool
  | .num (.real q) => decide (1 ≤ q) && decide (q ≤ 5)
  | _ => false

/-- `typeof score === 'number'` (true for NaN). -/
def typeofIsNumber : JsVal → Bool
  | .num _ => true
  | .other => false

/-! ## Concrete runs used by the counterexamples and witnesses -/

/-- One reviewer, one criterion, nothing else yet. -/
def c1S0 : State :=
  { users := [⟨1, .REVIEWER⟩], books := [], criteria := [⟨"CONT-1", 1⟩],
    assignments := [], reviews := [], aggregateResults := [],
    committeeDecisions := [], nextId := 10, clock := 0 }

def c1Score : List (String × JsVal) := [("CONT-1", .num (.real 4))]

def c1S1 : State := (uploadBook c1S0 9).toOption.getD c1S0
def c1S2 : State := (assignReviewers c1S1 9 10 [1] 14).toOption.getD c1S1
def c1S3 : State := (submitReview c1S2 1 11 c1Score [] false).toOption.getD c1S2
def c1S4 : State := (recordDecision c1S3 8 10 .APPROVED "fine").toOption.getD c1S3

/-- Three reviewers (1 = A, 2 = B, 3 = C) and a `PENDING_REVIEW` book. -/
def c5S0 : State :=
  { users := [⟨1, .REVIEWER⟩, ⟨2, .REVIEWER⟩, ⟨3, .REVIEWER⟩],
    books := [⟨10, 9, .PENDING_REVIEW⟩], criteria := [⟨"CONT-1", 1⟩],
    assignments := [], reviews := [], aggregateResults := [],
    committeeDecisions := [], nextId := 20, clock := 0 }

def c5S1 : State := (assignReviewers c5S0 9 10 [1, 2] 14).toOption.getD c5S0

/-- One reviewer and one criterion; the book reaches `UNDER_REVIEW` with one
assignment, whose status is then forced to `COMPLETED` by `updateAssignment`
without any review ever being submitted. -/
def c9S0 : State :=
  { users := [⟨1, .REVIEWER⟩], books := [], criteria := [⟨"CONT-1", 1⟩],
    assignments := [], reviews := [], aggregateResults := [],
    committeeDecisions := [], nextId := 10, clock := 0 }

def c9S1 : State := (uploadBook c9S0 9).toOption.getD c9S0
def c9S2 : State := (assignReviewers c9S1 9 10 [1] 14).toOption.getD c9S1
def c9S3 : State := (updateAssignment c9S2 11 none (some .COMPLETED)).toOption.getD c9S2

/-- A reviewer with a live assignment on an `UNDER_REVIEW` book, used to
submit a NaN score. -/
def c10S : State :=
  { users := [⟨7, .REVIEWER⟩], books := [⟨3, 9, .UNDER_REVIEW⟩],
    criteria := [⟨"CONT-1", 1⟩], assignments := [⟨5, 3, 7, 9, 14, .PENDING⟩],
    reviews := [], aggregateResults := [], committeeDecisions := [],
    nextId := 20, clock := 0 }

def c10Score : List (String × JsVal) := [("CONT-1", .num .nan)]

/-- A completed single-assignment book with one final review, for the
aggregate-accumulation witness. -/
def c8S : State :=
  { users := [⟨7, .REVIEWER⟩], books := [⟨3, 9, .REVIEW_COMPLETED⟩],
    criteria := [⟨"CONT-1", 1⟩],
    assignments := [⟨5, 3, 7, 9, 14, .COMPLETED⟩],
    reviews := [⟨5, 7, [("CONT-1", .real 4)], [], false, 1⟩],
    aggregateResults := [], committeeDecisions := [], nextId := 20, clock := 2 }

def c8S1 : State := (getAggregateStats c8S 3).toOption.getD c8S
def c8S2 : State := (getAggregateStats c8S1 3).toOption.getD c8S1

/-- A book already in `REVIEW_COMPLETED`, ready for a decision. -/
def c4S : State :=
  { users := [], books := [⟨10, 9, .REVIEW_COMPLETED⟩], criteria := [],
    assignments := [], reviews := [], aggregateResults := [],
    committeeDecisions := [], nextId := 20, clock := 5 }

/-- The same book still `PENDING_REVIEW`: decisions must be rejected. -/
def c4Sbad : State :=
  { users := [], books := [⟨10, 9, .PENDING_REVIEW⟩], criteria := [],
    assignments := [], reviews := [], aggregateResults := [],
    committeeDecisions := [], nextId := 20, clock := 5 }

def c4S' : State := (recordDecision c4S 8 10 .NEEDS_REVISION "detail").toOption.getD c4S

/-- An entry of a `scores` map that the specification says must be rejected:
unknown criterion code, non-numeric value, or a numeric value strictly below
1 or strictly above 5. -/
def badEntry (codes : List String) : String × JsVal → Prop
  | (code, v) =>
    code ∉ codes ∨ v = .other ∨ ∃ q, v = .num (.real q) ∧ (q < 1 ∨ 5 < q)

/-- An entry with a known criterion code and a boundary score of exactly 1
or exactly 5. -/
def boundaryEntry (codes : List String) : String × JsVal → Prop
  | (code, v) => code ∈ codes ∧ (v = .num (.real 1) ∨ v = .num (.real 5))

/-- Two reviewers (7 and 8) each with an open assignment (5 and 6) on the
`UNDER_REVIEW` book 3; reviewer 7 submits first (non-last), reviewer 8
second (last). -/
def c2S0 : State :=
  { users := [⟨7, .REVIEWER⟩, ⟨8, .REVIEWER⟩], books := [⟨3, 9, .UNDER_REVIEW⟩],
    criteria := [⟨"CONT-1", 1⟩],
    assignments := [⟨5, 3, 7, 9, 14, .PENDING⟩, ⟨6, 3, 8, 9, 14, .PENDING⟩],
    reviews := [], aggregateResults := [], committeeDecisions := [],
    nextId := 20, clock := 0 }

def c2Score : List (String × JsVal) := [("CONT-1", .num (.real 4))]

def c2S1 : State := (submitReview c2S0 7 5 c2Score [] false).toOption.getD c2S0
def c2S2 : State := (submitReview c2S1 8 6 c2Score [] false).toOption.getD c2S1

/-- A reviewer with a live assignment and two criteria, for the validation
witness. -/
def c6S : State :=
  { users := [⟨7, .REVIEWER⟩], books := [⟨3, 9, .UNDER_REVIEW⟩],
    criteria := [⟨"CONT-1", 1⟩, ⟨"CONT-2", 1⟩],
    assignments := [⟨5, 3, 7, 9, 14, .PENDING⟩],
    reviews := [], aggregateResults := [], committeeDecisions := [],
    nextId := 20, clock := 0 }

/-- A reviewer and a live assignment on an `UNDER_REVIEW` book, used for a
draft submission. -/
def c7S : State :=
  { users := [⟨7, .REVIEWER⟩], books := [⟨3, 9, .UNDER_REVIEW⟩],
    criteria := [⟨"CONT-1", 1⟩], assignments := [⟨5, 3, 7, 9, 14, .PENDING⟩],
    reviews := [], aggregateResults := [], committeeDecisions := [],
    nextId := 20, clock := 2 }

def c7Score : List (String × JsVal) := [("CONT-1", .num (.real 2))]

def c7S' : State := (submitReview c7S 7 5 c7Score [] true).toOption.getD c7S

/-! ## Theorems -/

/-- Claim C1, counterexample.  In the reachable run `c1S0` … `c1S4`
(upload, assign reviewer 1, final review, decision APPROVED), the book is in
the terminal status APPROVED; yet the reviewer's second final `submitReview`
succeeds and moves the book back to REVIEW_COMPLETED, so the claim that no
operation returns a book to an earlier state — in particular that no
`SubmitReview` call moves a terminal book back to REVIEW_COMPLETED — is
false on the code. -/
theorem C1_counterexample :
    uploadBook c1S0 9 = .ok c1S1
    ∧ assignReviewers c1S1 9 10 [1] 14 = .ok c1S2
    ∧ submitReview c1S2 1 11 c1Score [] false = .ok c1S3
    ∧ recordDecision c1S3 8 10 .APPROVED "fine" = .ok c1S4
    ∧ bookStatus c1S4 10 = some .APPROVED
    ∧ (submitReview c1S4 1 11 c1Score [] false).toOption.map (fun s => bookStatus s 10)
        = some (some .REVIEW_COMPLETED) := by
  with_unfolding_all decide

/-- Claim C5, counterexample.  Starting from a `PENDING_REVIEW` book with no
assignments, `assignReviewers` with `{1, 2}` succeeds; the second call with
the overlapping set `{2, 3}` is rejected with "book is not in a valid state
for assignment" (status is now UNDER_REVIEW), so reviewer 3 never gets an
assignment — the claimed outcome of one assignment each for A, B and C is
false on the code. -/
theorem C5_counterexample :
    assignReviewers c5S0 9 10 [1, 2] 14 = .ok c5S1
    ∧ assignReviewers c5S1 9 10 [2, 3] 14 = .error .bookNotPending
    ∧ (c5S1.assignments.filter fun a => decide (a.reviewerId = 1)).length = 1
    ∧ (c5S1.assignments.filter fun a => decide (a.reviewerId = 2)).length = 1
    ∧ (c5S1.assignments.filter fun a => decide (a.reviewerId = 3)).length = 0 := by
  with_unfolding_all decide

/-- Claim C9: a reachable state in which an assignment is COMPLETED (set
directly by `updateAssignment`) while the book has no non-draft review; there
`getAggregateStats` passes its "no completed reviews found" guard, computes
the overall mean as 0/0 = NaN, and persists the NaN-carrying summary instead
of reporting an error. -/
theorem C9_nan_aggregate :
    uploadBook c9S0 9 = .ok c9S1
    ∧ assignReviewers c9S1 9 10 [1] 14 = .ok c9S2
    ∧ updateAssignment c9S2 11 none (some .COMPLETED) = .ok c9S3
    ∧ assignmentStatus c9S3 11 = some .COMPLETED
    ∧ nonDraftReviews c9S3 10 = []
    ∧ computeBookStats c9S3 10 = []
    ∧ computeSummary (computeBookStats c9S3 10) = ⟨Num.nan, [], []⟩
    ∧ (getAggregateStats c9S3 10).toOption.map
        (fun s => s.aggregateResults.map fun r => (r.bookId, r.summary.overallMean))
        = some [(10, Num.nan)] := by
  with_unfolding_all decide

/-- Claim C10: NaN is a value of numeric type (`typeof` is `'number'`) that is
not in the range [1, 5], yet the validation accepts it — it rejects only
non-numbers and values comparing `< 1` or `> 5`, and NaN satisfies none of
these — so a final review carrying a NaN score for the valid criterion code
"CONT-1" is stored rather than rejected. -/
theorem C10_nan_score_accepted :
    typeofIsNumber (.num .nan) = true
    ∧ numLtQ .nan 1 = false
    ∧ numGtQ .nan 5 = false
    ∧ inRangeB (.num .nan) = false
    ∧ validateScores ["CONT-1"] c10Score = .ok [("CONT-1", .nan)]
    ∧ (submitReview c10S 7 5 c10Score [] false).toOption.map
        (fun s => s.reviews.map fun r => (r.assignmentId, r.reviewerId, r.scores))
        = some [(5, 7, [("CONT-1", Num.nan)])] := by
  with_unfolding_all decide


/-- The book update of `setBookStatus` leaves every id in place, so `find?`
by id commutes with it. -/
theorem find?_setBookStatus (books : List Book) (bid : Nat) (st : BookStatus)
    (bid' : Nat) :
    (setBookStatus books bid st).find? (fun b => decide (b.id = bid'))
      = (books.find? (fun b => decide (b.id = bid'))).map
          (fun b => if b.id = bid then { b with status := st } else b) := by
  induction books with
  | nil => rfl
  | cons b bs ih =>
    have hid : (if b.id = bid then { b with status := st } else b).id = b.id := by
      split <;> rfl
    by_cases h : b.id = bid'
    · rw [setBookStatus, List.map_cons,
        List.find?_cons_of_pos _ (by simpa [hid] using h),
        List.find?_cons_of_pos _ (by simpa using h)]
      rfl
    · rw [setBookStatus, List.map_cons,
        List.find?_cons_of_neg _ (by simpa [hid] using h),
        List.find?_cons_of_neg _ (by simpa using h)]
      exact ih

/-- Likewise for `setAssignmentStatus`. -/
theorem find?_setAssignmentStatus (asgs : List Assignment) (aid : Nat)
    (st : AssignmentStatus) (aid' : Nat) :
    (setAssignmentStatus asgs aid st).find? (fun a => decide (a.id = aid'))
      = (asgs.find? (fun a => decide (a.id = aid'))).map
          (fun a => if a.id = aid then { a with status := st } else a) := by
  induction asgs with
  | nil => rfl
  | cons a as ih =>
    have hid : (if a.id = aid then { a with status := st } else a).id = a.id := by
      split <;> rfl
    by_cases h : a.id = aid'
    · rw [setAssignmentStatus, List.map_cons,
        List.find?_cons_of_pos _ (by simpa [hid] using h),
        List.find?_cons_of_pos _ (by simpa using h)]
      rfl
    · rw [setAssignmentStatus, List.map_cons,
        List.find?_cons_of_neg _ (by simpa [hid] using h),
        List.find?_cons_of_neg _ (by simpa using h)]
      exact ih

/-- Claim C4: when the book exists but is not in REVIEW_COMPLETED,
`recordDecision` rejects, for every decision value; when it is in
REVIEW_COMPLETED, it appends a CommitteeDecision row and sets the book's
status to the status with the same name as the decision (APPROVED↦APPROVED,
REJECTED↦REJECTED, NEEDS_REVISION↦NEEDS_REVISION). -/
theorem C4_record_decision (s : State) (actor bid : Nat) (dec : Decision)
    (rat : String) (b : Book)
    (hb : s.books.find? (fun b => decide (b.id = bid)) = some b) :
    (b.status ≠ .REVIEW_COMPLETED → (recordDecision s actor bid dec rat).toOption = none)
    ∧ (b.status = .REVIEW_COMPLETED →
        ∃ s', recordDecision s actor bid dec rat = .ok s'
          ∧ s'.committeeDecisions
              = s.committeeDecisions ++ [⟨bid, actor, dec, rat, s.clock⟩]
          ∧ bookStatus s' bid = some (decisionToStatus dec)
          ∧ decisionToStatus .APPROVED = .APPROVED
          ∧ decisionToStatus .REJECTED = .REJECTED
          ∧ decisionToStatus .NEEDS_REVISION = .NEEDS_REVISION) := by
  have hbid : b.id = bid := by
    have := List.find?_some hb
    simpa using this
  constructor
  · intro hne
    simp [recordDecision, hb, hne, Except.toOption]
  · intro heq
    have hrun : recordDecision s actor bid dec rat = .ok
        { s with
          committeeDecisions := s.committeeDecisions ++ [⟨bid, actor, dec, rat, s.clock⟩]
          books := setBookStatus s.books bid (decisionToStatus dec)
          clock := s.clock + 1 } := by
      simp [recordDecision, hb, heq]
    refine ⟨_, hrun, rfl, ?_, rfl, rfl, rfl⟩
    simp only [bookStatus, find?_setBookStatus, hb, Option.map_some]
    simp [hbid]

/-- Witness for C4: on a `PENDING_REVIEW` book the decision is rejected; on a
`REVIEW_COMPLETED` book the NEEDS_REVISION decision is recorded and the book
becomes NEEDS_REVISION. -/
theorem C4_witness :
    (recordDecision c4Sbad 8 10 .APPROVED "r").toOption = none
    ∧ bookStatus c4S' 10 = some .NEEDS_REVISION
    ∧ c4S'.committeeDecisions = [⟨10, 8, .NEEDS_REVISION, "detail", 5⟩] := by
  refine ⟨(C4_record_decision c4Sbad 8 10 .APPROVED "r" ⟨10, 9, .PENDING_REVIEW⟩
      (by decide)).1 (by decide), ?_, ?_⟩ <;>
  · obtain ⟨s', hrun, hcd, hbs, -⟩ :=
      (C4_record_decision c4S 8 10 .NEEDS_REVISION "detail" ⟨10, 9, .REVIEW_COMPLETED⟩
        (by decide)).2 rfl
    have hs' : c4S' = s' := by simp [c4S', hrun, Except.toOption]
    rw [hs']
    first
      | exact hbs
      | (rw [hcd]; rfl)

/-- Claim C7: a successful `submitReview` with `draftFlag = true` leaves every
assignment's status and every book's status untouched (the whole assignment
and book tables are unchanged), and only upserts this reviewer's review row
for the assignment. -/
theorem C7_draft_frame (s : State) (uid aid : Nat)
    (scores : List (String × JsVal)) (comments : List (String × String))
    (s' : State) (hok : submitReview s uid aid scores comments true = .ok s') :
    s'.assignments = s.assignments
    ∧ s'.books = s.books
    ∧ ∃ vs, validateScores (s.criteria.map (·.code)) scores = .ok vs
        ∧ s'.reviews = upsertReview s.reviews s.clock aid uid vs comments true := by
  unfold submitReview at hok
  split at hok
  · exact absurd hok (by simp)
  · split at hok
    · exact absurd hok (by simp)
    · split at hok
      · exact absurd hok (by simp)
      · next vs hv =>
        rw [if_pos rfl] at hok
        injection hok with h
        subst h
        exact ⟨rfl, rfl, vs, hv, rfl⟩

/-- Witness for C7: a concrete draft submission leaves all assignments and
books as they were and stores exactly the upserted review. -/
theorem C7_witness :
    c7S'.assignments = c7S.assignments
    ∧ c7S'.books = c7S.books
    ∧ c7S'.reviews = upsertReview c7S.reviews c7S.clock 5 7 [("CONT-1", .real 2)] [] true := by
  have hrun : submitReview c7S 7 5 c7Score [] true = .ok c7S' := by
    with_unfolding_all decide
  obtain ⟨h1, h2, vs, hv, hr⟩ := C7_draft_frame c7S 7 5 c7Score [] c7S' hrun
  have hvs : validateScores (c7S.criteria.map (·.code)) c7Score
      = .ok [("CONT-1", Num.real 2)] := by
    with_unfolding_all decide
  rw [hvs] at hv
  injection hv with hv'
  exact ⟨h1, h2, by rw [hr, hv']⟩

/-- A scores map containing an entry the validation must reject makes
`validateScores` fail. -/
theorem validateScores_error_of_bad (codes : List String)
    (scores : List (String × JsVal)) (h : ∃ e ∈ scores, badEntry codes e) :
    ∃ err, validateScores codes scores = .error err := by
  induction scores with
  | nil => simp at h
  | cons e rest ih =>
    obtain ⟨code, v⟩ := e
    by_cases hc : codes.contains code
    · rw [validateScores]
      rw [if_neg (by simpa using hc)]
      match v with
      | .other => exact ⟨_, rfl⟩
      | .num n =>
        dsimp only
        by_cases hr : (numLtQ n 1 || numGtQ n 5) = true
        · rw [if_pos hr]; exact ⟨_, rfl⟩
        · rw [if_neg hr]
          have : ∃ e ∈ rest, badEntry codes e := by
            obtain ⟨e', he', hbad⟩ := h
            rcases List.mem_cons.mp he' with heq | hmem
            · exfalso
              subst heq
              rcases hbad with hnc | hother | ⟨q, hq, hrange⟩
              · exact hnc (by simpa using hc)
              · exact absurd hother (by simp)
              · have hn : n = .real q := by injection hq
                subst hn
                simp only [numLtQ, numGtQ, Bool.or_eq_true, decide_eq_true_eq] at hr
                push_neg at hr
                rcases hrange with h1 | h5
                · exact absurd h1 (by simpa using hr.1)
                · exact absurd h5 (by simpa using hr.2)
            · exact ⟨e', hmem, hbad⟩
          obtain ⟨err, herr⟩ := ih this
          exact ⟨err, by rw [herr]; rfl⟩
    · rw [validateScores]
      rw [if_pos (by simpa using hc)]
      exact ⟨_, rfl⟩

/-- A scores map all of whose entries carry a known code and a boundary score
of 1 or 5 passes `validateScores`. -/
theorem validateScores_ok_of_boundary (codes : List String)
    (scores : List (String × JsVal))
    (h : ∀ e ∈ scores, boundaryEntry codes e) :
    ∃ vs, validateScores codes scores = .ok vs := by
  induction scores with
  | nil => exact ⟨[], rfl⟩
  | cons e rest ih =>
    obtain ⟨code, v⟩ := e
    obtain ⟨hc, hv⟩ := h (code, v) (List.mem_cons_self _ _)
    obtain ⟨vs, hvs⟩ := ih fun e he => h e (List.mem_cons_of_mem _ he)
    rw [validateScores, if_neg (by simpa using hc)]
    rcases hv with rfl | rfl <;>
    · dsimp only
      rw [if_neg (by norm_num [numLtQ, numGtQ]), hvs]
      exact ⟨_, rfl⟩

/-- Claim C6: any submitted score that is strictly below 1, strictly above 5,
not of numeric type, or keyed by a criterion code absent from the registry
makes `submitReview` fail with an error (so no review is stored — every error
is raised before any write); while a submission on a live, authorized
assignment whose scores all carry known codes and the boundary values 1 or 5
succeeds. -/
theorem C6_score_validation (s : State) (uid aid : Nat)
    (scores : List (String × JsVal)) (comments : List (String × String))
    (draftFlag : Bool) :
    ((∃ e ∈ scores, badEntry (s.criteria.map (·.code)) e) →
        (submitReview s uid aid scores comments draftFlag).toOption = none)
    ∧ (∀ a, s.assignments.find? (fun x => decide (x.id = aid)) = some a →
        a.reviewerId = uid →
        (∀ e ∈ scores, boundaryEntry (s.criteria.map (·.code)) e) →
        (submitReview s uid aid scores comments draftFlag).toOption.isSome = true) := by
  constructor
  · intro hbad
    unfold submitReview
    cases hfind : s.assignments.find? (fun x => decide (x.id = aid)) with
    | none => simp [Except.toOption]
    | some a =>
      by_cases hu : a.reviewerId ≠ uid
      · simp [hu, Except.toOption]
      · obtain ⟨err, herr⟩ :=
          validateScores_error_of_bad (s.criteria.map (·.code)) scores hbad
        simp [hu, herr, Except.toOption]
  · intro a hfind hrev hgood
    obtain ⟨vs, hvs⟩ :=
      validateScores_ok_of_boundary (s.criteria.map (·.code)) scores hgood
    unfold submitReview
    rw [hfind]
    dsimp only
    rw [if_neg (by simp [hrev])]
    rw [hvs]
    dsimp only
    cases draftFlag <;> simp [Except.toOption]

/-- After marking assignment `aid` COMPLETED, the book's assignments are all
COMPLETED exactly when every assignment of the book other than `aid` already
was. -/
theorem all_completed_after_set (asgs : List Assignment) (aid bid : Nat) :
    (((setAssignmentStatus asgs aid .COMPLETED).filter
        fun x => decide (x.bookId = bid)).all fun x => decide (x.status = .COMPLETED))
      = ((asgs.filter fun x => decide (x.bookId = bid)).all
          fun x => decide (x.id = aid) || decide (x.status = .COMPLETED)) := by
  induction asgs with
  | nil => rfl
  | cons a as ih =>
    have hb : (if a.id = aid then { a with status := AssignmentStatus.COMPLETED } else a).bookId
        = a.bookId := by split <;> rfl
    by_cases hbid : a.bookId = bid
    · by_cases hid : a.id = aid <;>
        simp [setAssignmentStatus, List.filter_cons, hb, hbid, hid, ih,
          setAssignmentStatus] at ih ⊢ <;>
        simp [ih]
    · simp [setAssignmentStatus, List.filter_cons, hb, hbid, ih,
        setAssignmentStatus] at ih ⊢
      simp [ih]

/-- Witness for C6: the out-of-range scores 0 and 6, a non-numeric score and
an unknown criterion code are each rejected, while the boundary submission
`{CONT-1: 1, CONT-2: 5}` is accepted. -/
theorem C6_witness :
    (submitReview c6S 7 5 [("CONT-1", .num (.real 0))] [] false).toOption = none
    ∧ (submitReview c6S 7 5 [("CONT-1", .num (.real 6))] [] false).toOption = none
    ∧ (submitReview c6S 7 5 [("CONT-1", .other)] [] false).toOption = none
    ∧ (submitReview c6S 7 5 [("UNKNOWN", .num (.real 3))] [] false).toOption = none
    ∧ (submitReview c6S 7 5 [("CONT-1", .num (.real 1)), ("CONT-2", .num (.real 5))]
        [] false).toOption.isSome = true := by
  refine ⟨?_, ?_, ?_, ?_, ?_⟩
  · exact (C6_score_validation c6S 7 5 _ [] false).1
      ⟨_, List.mem_singleton.mpr rfl, Or.inr (Or.inr ⟨0, rfl, Or.inl (by norm_num)⟩)⟩
  · exact (C6_score_validation c6S 7 5 _ [] false).1
      ⟨_, List.mem_singleton.mpr rfl, Or.inr (Or.inr ⟨6, rfl, Or.inr (by norm_num)⟩)⟩
  · exact (C6_score_validation c6S 7 5 _ [] false).1
      ⟨_, List.mem_singleton.mpr rfl, Or.inr (Or.inl rfl)⟩
  · exact (C6_score_validation c6S 7 5 _ [] false).1
      ⟨_, List.mem_singleton.mpr rfl, Or.inl (by decide)⟩
  · refine (C6_score_validation c6S 7 5 _ [] false).2 ⟨5, 3, 7, 9, 14, .PENDING⟩
      (by decide) rfl ?_
    intro e he
    rcases List.mem_cons.mp he with rfl | he'
    · exact ⟨by decide, Or.inl rfl⟩
    · rcases List.mem_singleton.mp he' with rfl
      exact ⟨by decide, Or.inr rfl⟩

/-- Claim C2: a successful final (draftFlag = false) `submitReview` on an
assignment of a book in UNDER_REVIEW marks that assignment COMPLETED, and
flips the book to REVIEW_COMPLETED exactly when every other assignment of the
book was already COMPLETED (the last incomplete one); otherwise the book
stays UNDER_REVIEW. -/
theorem C2_final_submission (s : State) (uid aid : Nat)
    (scores : List (String × JsVal)) (comments : List (String × String))
    (a : Assignment) (s' : State)
    (ha : s.assignments.find? (fun x => decide (x.id = aid)) = some a)
    (hb : bookStatus s a.bookId = some .UNDER_REVIEW)
    (hok : submitReview s uid aid scores comments false = .ok s') :
    assignmentStatus s' aid = some .COMPLETED
    ∧ bookStatus s' a.bookId =
        (if ((s.assignments.filter fun x => decide (x.bookId = a.bookId)).all
              fun x => decide (x.id = aid) || decide (x.status = .COMPLETED))
          then some .REVIEW_COMPLETED
          else some .UNDER_REVIEW) := by
  have haid : a.id = aid := by simpa using List.find?_some ha
  obtain ⟨b, hbfind, hbstat⟩ : ∃ b,
      s.books.find? (fun x => decide (x.id = a.bookId)) = some b
        ∧ b.status = .UNDER_REVIEW := by
    unfold bookStatus at hb
    cases hfind : s.books.find? (fun x => decide (x.id = a.bookId)) with
    | none => rw [hfind] at hb; exact absurd hb (by simp)
    | some b =>
      rw [hfind] at hb
      exact ⟨b, rfl, by simpa using hb⟩
  have hbid : b.id = a.bookId := by simpa using List.find?_some hbfind
  have hassignStat :
      ∀ t : State, t.assignments = setAssignmentStatus s.assignments aid .COMPLETED →
        assignmentStatus t aid = some .COMPLETED := by
    intro t ht
    unfold assignmentStatus
    rw [ht, find?_setAssignmentStatus, ha]
    simp [haid]
  unfold submitReview at hok
  rw [ha] at hok
  dsimp only at hok
  split at hok
  · exact absurd hok (by simp)
  · split at hok
    · exact absurd hok (by simp)
    · rw [if_neg (by simp)] at hok
      split at hok
      · next hall =>
        injection hok with h
        subst h
        rw [all_completed_after_set] at hall
        refine ⟨hassignStat _ rfl, ?_⟩
        rw [if_pos hall]
        unfold bookStatus
        dsimp only
        rw [find?_setBookStatus, hbfind]
        simp [hbid]
      · next hall =>
        injection hok with h
        subst h
        rw [all_completed_after_set] at hall
        refine ⟨hassignStat _ rfl, ?_⟩
        rw [if_neg hall]
        unfold bookStatus
        dsimp only
        rw [hbfind]
        simp [hbstat]

/-- Witness for C2: reviewer 7's final submission (the other assignment still
open) completes assignment 5 but leaves book 3 UNDER_REVIEW; reviewer 8's
final submission on the last open assignment completes assignment 6 and flips
book 3 to REVIEW_COMPLETED. -/
theorem C2_witness :
    assignmentStatus c2S1 5 = some .COMPLETED
    ∧ bookStatus c2S1 3 = some .UNDER_REVIEW
    ∧ assignmentStatus c2S2 6 = some .COMPLETED
    ∧ bookStatus c2S2 3 = some .REVIEW_COMPLETED := by
  have h1 := C2_final_submission c2S0 7 5 c2Score [] ⟨5, 3, 7, 9, 14, .PENDING⟩ c2S1
    (by decide) (by decide) (by with_unfolding_all decide)
  have h2 := C2_final_submission c2S1 8 6 c2Score [] ⟨6, 3, 8, 9, 14, .PENDING⟩ c2S2
    (by with_unfolding_all decide) (by with_unfolding_all decide)
    (by with_unfolding_all decide)
  exact ⟨h1.1, h1.2.trans (by with_unfolding_all decide),
    h2.1, h2.2.trans (by with_unfolding_all decide)⟩

/-- A book whose id differs from the one `setBookStatus` targets keeps its
status under `bookStatus`. -/
theorem bookStatus_setBookStatus_other (books : List Book) (bid : Nat)
    (st : BookStatus) (b' : Nat) (hne : b' ≠ bid) :
    ((setBookStatus books bid st).find? (fun x => decide (x.id = b'))).map (·.status)
      = (books.find? (fun x => decide (x.id = b'))).map (·.status) := by
  rw [find?_setBookStatus]
  cases hf : books.find? (fun x => decide (x.id = b')) with
  | none => rfl
  | some bb =>
    have hid : bb.id = b' := by simpa using List.find?_some hf
    simp only [Option.map_some']
    rw [if_neg (by rw [hid]; exact hne)]

/-- A successful `assignReviewers` changes no book's status except for moving
the target book from PENDING_REVIEW to UNDER_REVIEW. -/
theorem assignReviewers_status_change (s : State) (actor bid : Nat)
    (rids : List Nat) (due : Nat) (s' : State)
    (hok : assignReviewers s actor bid rids due = .ok s') (b' : Nat) :
    bookStatus s' b' = bookStatus s b'
    ∨ (b' = bid ∧ bookStatus s b' = some .PENDING_REVIEW
        ∧ bookStatus s' b' = some .UNDER_REVIEW) := by
  unfold assignReviewers at hok
  split at hok
  · exact absurd hok (by simp)
  · next book hfind =>
    split at hok
    · exact absurd hok (by simp)
    · next hst =>
      rw [not_not] at hst
      dsimp only at hok
      split at hok
      · exact absurd hok (by simp)
      · injection hok with h
        subst h
        by_cases hb' : b' = bid
        · subst hb'
          have hid : book.id = b' := by simpa using List.find?_some hfind
          refine Or.inr ⟨rfl, ?_, ?_⟩
          · unfold bookStatus
            rw [hfind]
            simp [hst]
          · unfold bookStatus
            dsimp only
            rw [find?_setBookStatus, hfind]
            simp [hid]
        · exact Or.inl (bookStatus_setBookStatus_other s.books bid _ b' hb')

/-- A successful `recordDecision` changes no book's status except for moving
the target book from REVIEW_COMPLETED to the status matching the decision. -/
theorem recordDecision_status_change (s : State) (actor bid : Nat)
    (dec : Decision) (rat : String) (s' : State)
    (hok : recordDecision s actor bid dec rat = .ok s') (b' : Nat) :
    bookStatus s' b' = bookStatus s b'
    ∨ (b' = bid ∧ bookStatus s b' = some .REVIEW_COMPLETED
        ∧ bookStatus s' b' = some (decisionToStatus dec)) := by
  unfold recordDecision at hok
  split at hok
  · exact absurd hok (by simp)
  · next book hfind =>
    split at hok
    · exact absurd hok (by simp)
    · next hst =>
      rw [not_not] at hst
      injection hok with h
      subst h
      by_cases hb' : b' = bid
      · subst hb'
        have hid : book.id = b' := by simpa using List.find?_some hfind
        refine Or.inr ⟨rfl, ?_, ?_⟩
        · unfold bookStatus
          rw [hfind]
          simp [hst]
        · unfold bookStatus
          dsimp only
          rw [find?_setBookStatus, hfind]
          simp [hid]
      · exact Or.inl (bookStatus_setBookStatus_other s.books bid _ b' hb')

/-- A successful `submitReview` either leaves a book's status unchanged or
sets it to REVIEW_COMPLETED — with no constraint on the previous status,
because the completion check never consults it. -/
theorem submitReview_status_change (s : State) (uid aid : Nat)
    (scores : List (String × JsVal)) (comments : List (String × String))
    (draftFlag : Bool) (s' : State)
    (hok : submitReview s uid aid scores comments draftFlag = .ok s') (b' : Nat) :
    bookStatus s' b' = bookStatus s b' ∨ bookStatus s' b' = some .REVIEW_COMPLETED := by
  unfold submitReview at hok
  split at hok
  · exact absurd hok (by simp)
  · next assignment hfind =>
    split at hok
    · exact absurd hok (by simp)
    · split at hok
      · exact absurd hok (by simp)
      · cases draftFlag with
        | true =>
          rw [if_pos rfl] at hok
          injection hok with h
          subst h
          exact Or.inl rfl
        | false =>
          rw [if_neg (by simp)] at hok
          dsimp only at hok
          split at hok
          · injection hok with h
            subst h
            by_cases hb' : b' = assignment.bookId
            · subst hb'
              unfold bookStatus
              dsimp only
              rw [find?_setBookStatus]
              cases hf : s.books.find? (fun x => decide (x.id = assignment.bookId)) with
              | none => exact Or.inl rfl
              | some bb =>
                have hid : bb.id = assignment.bookId := by
                  simpa using List.find?_some hf
                refine Or.inr ?_
                simp [hid]
            · exact Or.inl
                (bookStatus_setBookStatus_other s.books assignment.bookId _ b' hb')
          · injection hok with h
            subst h
            exact Or.inl rfl

/-- Claim C1, amended: `AssignReviewers` only ever moves a book from
PENDING_REVIEW to UNDER_REVIEW and `RecordDecision` only from
REVIEW_COMPLETED to the decision's status, as the diagram says; but
`SubmitReview`'s completion check does not consult the book's current status,
so it may set any book to REVIEW_COMPLETED — including a book already in a
terminal status, which a final resubmission returns to REVIEW_COMPLETED
(the only deviation from the claimed diagram, exhibited by the
counterexample). -/
theorem C1_transitions :
    (∀ (s : State) (actor bid : Nat) (rids : List Nat) (due : Nat) (s' : State),
      assignReviewers s actor bid rids due = .ok s' → ∀ b' : Nat,
        bookStatus s' b' = bookStatus s b'
        ∨ (b' = bid ∧ bookStatus s b' = some .PENDING_REVIEW
            ∧ bookStatus s' b' = some .UNDER_REVIEW))
    ∧ (∀ (s : State) (actor bid : Nat) (dec : Decision) (rat : String) (s' : State),
      recordDecision s actor bid dec rat = .ok s' → ∀ b' : Nat,
        bookStatus s' b' = bookStatus s b'
        ∨ (b' = bid ∧ bookStatus s b' = some .REVIEW_COMPLETED
            ∧ bookStatus s' b' = some (decisionToStatus dec)))
    ∧ (∀ (s : State) (uid aid : Nat) (scores : List (String × JsVal))
        (comments : List (String × String)) (draftFlag : Bool) (s' : State),
      submitReview s uid aid scores comments draftFlag = .ok s' → ∀ b' : Nat,
        bookStatus s' b' = bookStatus s b'
        ∨ bookStatus s' b' = some .REVIEW_COMPLETED) :=
  ⟨fun s actor bid rids due s' hok b' =>
      assignReviewers_status_change s actor bid rids due s' hok b',
    fun s actor bid dec rat s' hok b' =>
      recordDecision_status_change s actor bid dec rat s' hok b',
    fun s uid aid scores comments draftFlag s' hok b' =>
      submitReview_status_change s uid aid scores comments draftFlag s' hok b'⟩

/-- Witness for the amended C1, instantiating all three parts on the concrete
run of the counterexample states. -/
theorem C1_transitions_witness :
    (bookStatus c1S2 10 = bookStatus c1S1 10
      ∨ (10 = 10 ∧ bookStatus c1S1 10 = some .PENDING_REVIEW
          ∧ bookStatus c1S2 10 = some .UNDER_REVIEW))
    ∧ (bookStatus c1S4 10 = bookStatus c1S3 10
      ∨ (10 = 10 ∧ bookStatus c1S3 10 = some .REVIEW_COMPLETED
          ∧ bookStatus c1S4 10 = some (decisionToStatus .APPROVED)))
    ∧ (bookStatus c1S3 10 = bookStatus c1S2 10
      ∨ bookStatus c1S3 10 = some .REVIEW_COMPLETED) :=
  ⟨C1_transitions.1 c1S1 9 10 [1] 14 c1S2 (by with_unfolding_all decide) 10,
    C1_transitions.2.1 c1S3 8 10 .APPROVED "fine" c1S4 (by with_unfolding_all decide) 10,
    C1_transitions.2.2 c1S2 1 11 c1Score [] false c1S3 (by with_unfolding_all decide) 10⟩

/-- Filtering by a conjunction is empty whenever filtering by the first
conjunct is. -/
theorem filter_and_nil {α} (p q : α → Bool) (l : List α)
    (h : l.filter p = []) : l.filter (fun a => p a && q a) = [] := by
  induction l with
  | nil => rfl
  | cons x xs ih =>
    rw [List.filter_cons] at h ⊢
    by_cases hp : p x
    · rw [if_pos hp] at h
      exact absurd h (by simp)
    · rw [if_neg (by simpa using hp)] at h
      rw [if_neg (by simp [hp])]
      exact ih h

/-- Claim C5, amended: with a fresh PENDING_REVIEW book, the first
`AssignReviewers {A, B}` creates exactly one assignment each for A and B; the
second call with the overlapping set `{B, C}` is rejected outright ("book is
not in a valid state for assignment", because the first call moved the book
to UNDER_REVIEW), so no duplicate is created for B — but neither is any
assignment for C.  The delta/no-duplicate behaviour exists only inside a
single call, which skips reviewers already assigned. -/
theorem C5_overlapping_assign (s s1 : State) (actor bid A B C d1 d2 : Nat)
    (hAB : A ≠ B) (hCA : C ≠ A) (hCB : C ≠ B)
    (hnoassign : s.assignments.filter (fun a => decide (a.bookId = bid)) = [])
    (hok1 : assignReviewers s actor bid [A, B] d1 = .ok s1) :
    assignReviewers s1 actor bid [B, C] d2 = .error .bookNotPending
    ∧ (s1.assignments.filter fun a =>
        decide (a.bookId = bid) && decide (a.reviewerId = A)).length = 1
    ∧ (s1.assignments.filter fun a =>
        decide (a.bookId = bid) && decide (a.reviewerId = B)).length = 1
    ∧ (s1.assignments.filter fun a =>
        decide (a.bookId = bid) && decide (a.reviewerId = C)).length = 0 := by
  unfold assignReviewers at hok1
  split at hok1
  · exact absurd hok1 (by simp)
  · next book hfind =>
    split at hok1
    · exact absurd hok1 (by simp)
    · next hst =>
      rw [not_not] at hst
      dsimp only at hok1
      split at hok1
      · exact absurd hok1 (by simp)
      · injection hok1 with h
        subst h
        have hid : book.id = bid := by simpa using List.find?_some hfind
        have hcreated : (List.foldl
            (fun (acc : List Assignment × Nat) (rid : Nat) =>
              if ((s.assignments.filter fun a => decide (a.bookId = bid)).any
                  fun a => decide (a.reviewerId = rid)) = true then acc
              else (acc.1 ++ [⟨acc.2, bid, rid, actor, d1, .PENDING⟩], acc.2 + 1))
            ([], s.nextId) [A, B]).1
            = [⟨s.nextId, bid, A, actor, d1, .PENDING⟩,
               ⟨s.nextId + 1, bid, B, actor, d1, .PENDING⟩] := by
          rw [hnoassign]
          simp
        refine ⟨?_, ?_, ?_, ?_⟩
        · unfold assignReviewers
          dsimp only
          rw [find?_setBookStatus, hfind]
          simp [hid]
        all_goals
          rw [hcreated, List.filter_append,
            filter_and_nil (fun (a : Assignment) => decide (a.bookId = bid)) _
              s.assignments hnoassign]
          simp [hAB, Ne.symm hAB, hCA, hCB, Ne.symm hCA, Ne.symm hCB]

/-- Witness for the amended C5 on the concrete two-call run of the
counterexample states. -/
theorem C5_witness :
    assignReviewers c5S1 9 10 [2, 3] 14 = .error .bookNotPending
    ∧ (c5S1.assignments.filter fun a =>
        decide (a.bookId = 10) && decide (a.reviewerId = 1)).length = 1
    ∧ (c5S1.assignments.filter fun a =>
        decide (a.bookId = 10) && decide (a.reviewerId = 2)).length = 1
    ∧ (c5S1.assignments.filter fun a =>
        decide (a.bookId = 10) && decide (a.reviewerId = 3)).length = 0 :=
  C5_overlapping_assign c5S0 c5S1 9 10 1 2 3 14 14 (by decide) (by decide) (by decide)
    (by decide) (by with_unfolding_all decide)

/-- A successful `getAggregateStats` call, in a state whose aggregate rows all
predate the current clock (as the strictly increasing clock guarantees),
appends one fresh row stamped with the current time — the upsert's
`(book_id, computed_at = now)` key never matches an existing row — and the
freshness invariant is preserved. -/
theorem aggregate_append (s : State) (bid : Nat)
    (hfresh : ∀ r ∈ s.aggregateResults, r.computedAt < s.clock)
    (s' : State) (hok : getAggregateStats s bid = .ok s') :
    s'.aggregateResults
      = s.aggregateResults
        ++ [⟨bid, s.clock, computeBookStats s bid,
             computeSummary (computeBookStats s bid)⟩]
    ∧ s'.clock = s.clock + 1
    ∧ (∀ r ∈ s'.aggregateResults, r.computedAt < s'.clock) := by
  have hany : (s.aggregateResults.any fun r =>
      decide (r.bookId = bid) && decide (r.computedAt = s.clock)) = false := by
    rw [List.any_eq_false]
    intro r hr
    simp only [Bool.and_eq_true, decide_eq_true_eq, not_and]
    intro _
    exact Nat.ne_of_lt (hfresh r hr)
  unfold getAggregateStats at hok
  split at hok
  · exact absurd hok (by simp)
  · dsimp only at hok
    split at hok
    · exact absurd hok (by simp)
    · injection hok with h
      subst h
      refine ⟨?_, rfl, ?_⟩
      · dsimp only
        unfold upsertAggregate
        rw [if_neg (by simp [hany])]
      · intro r hr
        dsimp only at hr ⊢
        unfold upsertAggregate at hr
        rw [if_neg (by simp [hany])] at hr
        rcases List.mem_append.mp hr with hold | hnew
        · exact Nat.lt_succ_of_lt (hfresh r hold)
        · rcases List.mem_singleton.mp hnew with rfl
          exact Nat.lt_succ_self _

/-- Claim C8: under the strictly increasing clock, every successful
`getAggregateStats` call appends a brand-new AggregateResult row for the book
(the upsert key contains the current timestamp, which no existing row
carries), and a second successful call appends yet another row with a
different `computed_at` — rows accumulate, one per call. -/
theorem C8_aggregate_accumulates (s : State) (bid : Nat)
    (hfresh : ∀ r ∈ s.aggregateResults, r.computedAt < s.clock)
    (s' s'' : State) (hok : getAggregateStats s bid = .ok s')
    (hok2 : getAggregateStats s' bid = .ok s'') :
    (∃ row1, s'.aggregateResults = s.aggregateResults ++ [row1]
       ∧ row1.bookId = bid ∧ row1.computedAt = s.clock)
    ∧ (∃ row2, s''.aggregateResults = s'.aggregateResults ++ [row2]
       ∧ row2.bookId = bid ∧ row2.computedAt = s'.clock)
    ∧ s'.clock ≠ s.clock := by
  obtain ⟨h1, hclock, hfresh'⟩ := aggregate_append s bid hfresh s' hok
  obtain ⟨h2, -, -⟩ := aggregate_append s' bid hfresh' s'' hok2
  exact ⟨⟨_, h1, rfl, rfl⟩, ⟨_, h2, rfl, rfl⟩,
    by rw [hclock]; exact Nat.succ_ne_self _⟩

/-- Witness for C8: two concrete consecutive calls leave two rows with the
distinct timestamps 2 and 3. -/
theorem C8_witness :
    c8S1.aggregateResults.length = 1
    ∧ c8S2.aggregateResults.length = 2
    ∧ c8S2.aggregateResults.map (·.computedAt) = [2, 3] := by
  obtain ⟨⟨r1, h1, -, hr1⟩, ⟨r2, h2, -, hr2⟩, -⟩ :=
    C8_aggregate_accumulates c8S 3 (by simp [c8S]) c8S1 c8S2
      (by with_unfolding_all decide) (by with_unfolding_all decide)
  have hclock1 : c8S1.clock = 3 := by with_unfolding_all decide
  refine ⟨by rw [h1]; rfl, by rw [h2, h1]; rfl, ?_⟩
  rw [h2, h1]
  simp [hr1, hr2, hclock1, c8S]

/-- `List.lookup` on a cons cell, stated with propositional equality. -/
theorem lookup_cons {b : Type} (k : String) (v : b) (rest : List (String × b))
    (c : String) :
    ((k, v) :: rest).lookup c = if c = k then some v else rest.lookup c := by
  by_cases h : c = k
  · subst h
    rw [List.lookup, beq_self_eq_true, if_pos rfl]
  · have hb : (c == k) = false := beq_eq_false_iff_ne.mpr h
    rw [List.lookup, hb, if_neg h]

/-- `lookup` after a `pushScore`: the pushed key's array gains `v` at the end,
every other key is untouched. -/
theorem lookup_pushScore (m : List (String × List Num)) (k : String) (v : Num)
    (c : String) :
    (pushScore m k v).lookup c
      = if c = k then some (((m.lookup k).getD []) ++ [v]) else m.lookup c := by
  induction m with
  | nil =>
    rw [pushScore, lookup_cons]
    by_cases h : c = k
    · rw [if_pos h, if_pos h]
      rfl
    · rw [if_neg h, if_neg h]
  | cons e rest ih =>
    obtain ⟨kk, l⟩ := e
    by_cases hk : kk = k
    · subst hk
      by_cases hc : c = kk <;> simp [pushScore, lookup_cons, hc]
    · by_cases hc : c = kk
      · subst hc
        simp [pushScore, hk, lookup_cons]
      · have hk' : ¬(k = kk) := fun h => hk h.symm
        simp [pushScore, hk, hc, hk', lookup_cons, ih]

/-- `getScores` after a `pushScore`. -/
theorem getScores_pushScore (m : List (String × List Num)) (k : String)
    (v : Num) (c : String) :
    getScores (pushScore m k v) c
      = getScores m c ++ (if c = k then [v] else []) := by
  by_cases h : c = k <;> simp [getScores, lookup_pushScore, h]

/-- Folding one review's scores into the accumulator appends, under key `c`,
exactly that review's scores for `c`, in order. -/
theorem getScores_foldScores (kvs : List (String × Num))
    (m : List (String × List Num)) (c : String) :
    getScores (kvs.foldl (fun acc kv => pushScore acc kv.1 kv.2) m) c
      = getScores m c ++ (kvs.filter fun kv => decide (kv.1 = c)).map (·.2) := by
  induction kvs generalizing m with
  | nil => simp
  | cons kv rest ih =>
    rw [List.foldl_cons, ih, getScores_pushScore, List.filter_cons]
    by_cases h : kv.1 = c
    · rw [if_pos h.symm, if_pos (by simpa using h)]
      simp
    · rw [if_neg fun hh => h hh.symm, if_neg (by simpa using h)]
      simp

/-- With unique keys (a JS object), the filtered scores for `c` are just the
looked-up value, if any. -/
theorem filter_eq_lookup_of_nodup (kvs : List (String × Num)) (c : String)
    (hnodup : (kvs.map Prod.fst).Nodup) :
    (kvs.filter fun kv => decide (kv.1 = c)).map (·.2)
      = (kvs.lookup c).toList := by
  induction kvs with
  | nil => rfl
  | cons kv rest ih =>
    obtain ⟨k, v⟩ := kv
    rw [List.map_cons] at hnodup
    obtain ⟨hk, hrest⟩ := List.nodup_cons.mp hnodup
    rw [lookup_cons]
    by_cases h : k = c
    · subst h
      rw [List.filter_cons, if_pos (by simp)]
      have hnil : rest.filter (fun kv => decide (kv.1 = k)) = [] := by
        rw [List.filter_eq_nil_iff]
        intro x hx
        simp only [decide_eq_true_eq]
        intro hxk
        exact hk (List.mem_map.mpr ⟨x, hx, hxk⟩)
      rw [List.map_cons, hnil, if_pos rfl]
      rfl
    · rw [List.filter_cons, if_neg (by simpa using h), ih hrest,
        if_neg fun hh => h hh.symm]

/-- The per-review filtered scores flatten to the looked-up scores when each
review has unique keys. -/
theorem flatten_filter_eq_filterMap (revs : List Review) (c : String)
    (hnodup : ∀ r ∈ revs, (r.scores.map Prod.fst).Nodup) :
    (revs.map fun r =>
        (r.scores.filter fun kv => decide (kv.1 = c)).map (·.2)).flatten
      = revs.filterMap fun r => r.scores.lookup c := by
  induction revs with
  | nil => rfl
  | cons r rest ih =>
    rw [List.map_cons, List.flatten_cons, List.filterMap_cons,
      filter_eq_lookup_of_nodup _ _ (hnodup r (List.mem_cons_self _ _)),
      ih fun x hx => hnodup x (List.mem_cons_of_mem _ hx)]
    cases r.scores.lookup c <;> simp

/-- The accumulated score map of `collectScores`, read at `c`, is the
concatenation of each review's scores for `c`, in review order. -/
theorem getScores_collectScores (revs : List Review) (c : String) :
    getScores (collectScores revs) c
      = (revs.map fun r =>
          (r.scores.filter fun kv => decide (kv.1 = c)).map (·.2)).flatten := by
  suffices h : ∀ m, getScores
      (revs.foldl (fun acc r => r.scores.foldl (fun m kv => pushScore m kv.1 kv.2) acc) m) c
      = getScores m c ++ (revs.map fun r =>
          (r.scores.filter fun kv => decide (kv.1 = c)).map (·.2)).flatten by
    have h0 := h []
    simpa [collectScores, getScores] using h0
  induction revs with
  | nil => simp
  | cons r rest ih =>
    intro m
    rw [List.foldl_cons, ih, getScores_foldScores]
    simp

/-- Under per-review key uniqueness, the collected scores for `c` are exactly
the non-draft reviews' looked-up scores for `c`. -/
theorem getScores_eq_scoresFor (s : State) (bid : Nat) (c : String)
    (hnodup : ∀ r ∈ s.reviews, (r.scores.map Prod.fst).Nodup) :
    getScores (collectScores (nonDraftReviews s bid)) c = scoresFor s bid c := by
  have hsub : ∀ r ∈ nonDraftReviews s bid, r ∈ s.reviews := by
    intro r hr
    have h1 := List.mem_of_mem_filter hr
    obtain ⟨a, -, ha2⟩ := List.mem_flatMap.mp h1
    exact List.mem_of_mem_filter ha2
  rw [getScores_collectScores, scoresFor,
    flatten_filter_eq_filterMap _ _ fun r hr => hnodup r (hsub r hr)]

/-- `pushScore` never stores an empty array. -/
theorem pushScore_values_nonempty (m : List (String × List Num)) (k : String)
    (v : Num) (hm : ∀ p ∈ m, p.2 ≠ []) :
    ∀ p ∈ pushScore m k v, p.2 ≠ [] := by
  induction m with
  | nil =>
    intro p hp
    rcases List.mem_singleton.mp hp with rfl
    simp
  | cons e rest ih =>
    obtain ⟨kk, l⟩ := e
    intro p hp
    rw [pushScore] at hp
    by_cases hk : kk = k
    · rw [if_pos hk] at hp
      rcases List.mem_cons.mp hp with rfl | hmem
      · simp
      · exact hm p (List.mem_cons_of_mem _ hmem)
    · rw [if_neg hk] at hp
      rcases List.mem_cons.mp hp with rfl | hmem
      · exact hm _ (List.mem_cons_self _ _)
      · exact ih (fun q hq => hm q (List.mem_cons_of_mem _ hq)) p hmem

/-- Every array in the collected score map is nonempty. -/
theorem collectScores_values_nonempty (revs : List Review) :
    ∀ p ∈ collectScores revs, p.2 ≠ [] := by
  suffices h : ∀ (m : List (String × List Num)), (∀ p ∈ m, p.2 ≠ []) →
      ∀ p ∈ revs.foldl
        (fun acc r => r.scores.foldl (fun m kv => pushScore m kv.1 kv.2) acc) m,
        p.2 ≠ [] by
    exact h [] (by simp)
  induction revs with
  | nil =>
    intro m hm
    simpa using hm
  | cons r rest ih =>
    intro m hm
    rw [List.foldl_cons]
    refine ih _ ?_
    clear ih
    induction r.scores generalizing m with
    | nil => simpa using hm
    | cons kv kvs ih2 =>
      rw [List.foldl_cons]
      exact ih2 _ (pushScore_values_nonempty m kv.1 kv.2 hm)

/-- A successful lookup in an assoc list returns the value of some entry. -/
theorem lookup_mem_values {b : Type} (m : List (String × b)) (c : String)
    (v : b) (h : m.lookup c = some v) : ∃ k, (k, v) ∈ m := by
  induction m with
  | nil => simp [List.lookup] at h
  | cons e rest ih =>
    obtain ⟨kk, l⟩ := e
    rw [lookup_cons] at h
    by_cases hc : c = kk
    · rw [if_pos hc] at h
      injection h with h
      exact ⟨kk, by simp [h]⟩
    · rw [if_neg hc] at h
      obtain ⟨k, hk⟩ := ih h
      exact ⟨k, List.mem_cons_of_mem _ hk⟩

/-- `lookup` on a value-mapped assoc list. -/
theorem lookup_map_value {b g : Type} (m : List (String × b)) (f : b → g)
    (c : String) :
    (m.map fun p => (p.1, f p.2)).lookup c = (m.lookup c).map f := by
  induction m with
  | nil => rfl
  | cons e rest ih =>
    obtain ⟨k, v⟩ := e
    rw [List.map_cons]
    dsimp only
    rw [lookup_cons, lookup_cons]
    by_cases hc : c = k
    · rw [if_pos hc, if_pos hc]
      rfl
    · rw [if_neg hc, if_neg hc]
      exact ih

/-! ## Arithmetic of the statistics on real-valued (non-NaN) score lists -/

/-- The `reduce((a, b) => a + b, 0)` fold over real scores is the sum. -/
theorem foldl_nadd_real (l : List ℚ) (q0 : ℚ) :
    (l.map Num.real).foldl nadd (Num.real q0) = Num.real (q0 + l.sum) := by
  induction l generalizing q0 with
  | nil => simp
  | cons x xs ih =>
    rw [List.map_cons, List.foldl_cons]
    show (xs.map Num.real).foldl nadd (Num.real (q0 + x)) = _
    rw [ih]
    rw [List.sum_cons, add_assoc]

/-- The `reduce((a, b) => a + pow(b - mean, 2), 0)` fold over real scores with
a real mean is the sum of squared deviations. -/
theorem foldl_sqdev_real (l : List ℚ) (mu : ℚ) (q0 : ℚ) :
    (l.map Num.real).foldl (fun acc b => nadd acc (npow2 (nsub b (Num.real mu))))
        (Num.real q0)
      = Num.real (q0 + (l.map fun x => (x - mu) ^ 2).sum) := by
  induction l generalizing q0 with
  | nil => simp
  | cons x xs ih =>
    rw [List.map_cons, List.foldl_cons]
    show (xs.map Num.real).foldl _ (Num.real (q0 + (x - mu) ^ 2)) = _
    rw [ih]
    rw [List.map_cons, List.sum_cons, add_assoc]

/-- The `Math.min` fold over real scores is the `min` fold of the rationals. -/
theorem foldl_nmin_real (l : List ℚ) (h : ℚ) :
    (l.map Num.real).foldl nmin (Num.real h) = Num.real (l.foldl min h) := by
  induction l generalizing h with
  | nil => rfl
  | cons x xs ih =>
    rw [List.map_cons, List.foldl_cons, List.foldl_cons]
    exact ih (min h x)

/-- The `Math.max` fold over real scores is the `max` fold of the rationals. -/
theorem foldl_nmax_real (l : List ℚ) (h : ℚ) :
    (l.map Num.real).foldl nmax (Num.real h) = Num.real (l.foldl max h) := by
  induction l generalizing h with
  | nil => rfl
  | cons x xs ih =>
    rw [List.map_cons, List.foldl_cons, List.foldl_cons]
    exact ih (max h x)

/-- The min fold is a lower bound of the seed. -/
theorem foldl_min_le_seed (l : List ℚ) (h : ℚ) : l.foldl min h ≤ h := by
  induction l generalizing h with
  | nil => exact le_refl h
  | cons x xs ih => exact le_trans (ih (min h x)) (min_le_left h x)

/-- The min fold is a lower bound of every element. -/
theorem foldl_min_le_mem (l : List ℚ) (x : ℚ) (hx : x ∈ l) :
    ∀ h, l.foldl min h ≤ x := by
  induction hx with
  | head ys =>
    intro h
    exact le_trans (foldl_min_le_seed ys (min h x)) (min_le_right h x)
  | tail y hmem ih =>
    intro h
    exact ih (min h y)

/-- The min fold is the seed or an element. -/
theorem foldl_min_mem (l : List ℚ) (h : ℚ) :
    l.foldl min h = h ∨ l.foldl min h ∈ l := by
  induction l generalizing h with
  | nil => exact Or.inl rfl
  | cons x xs ih =>
    rw [List.foldl_cons]
    rcases ih (min h x) with heq | hmem
    · rcases min_choice h x with hh | hx
      · exact Or.inl (heq.trans hh)
      · refine Or.inr ?_
        rw [heq, hx]
        exact List.mem_cons_self x xs
    · exact Or.inr (List.mem_cons_of_mem _ hmem)

/-- The max fold is an upper bound of the seed. -/
theorem le_foldl_max_seed (l : List ℚ) (h : ℚ) : h ≤ l.foldl max h := by
  induction l generalizing h with
  | nil => exact le_refl h
  | cons x xs ih => exact le_trans (le_max_left h x) (ih (max h x))

/-- The max fold is an upper bound of every element. -/
theorem le_foldl_max_mem (l : List ℚ) (x : ℚ) (hx : x ∈ l) :
    ∀ h, x ≤ l.foldl max h := by
  induction hx with
  | head ys =>
    intro h
    exact le_trans (le_max_right h x) (le_foldl_max_seed ys (max h x))
  | tail y hmem ih =>
    intro h
    exact ih (max h y)

/-- The max fold is the seed or an element. -/
theorem foldl_max_mem (l : List ℚ) (h : ℚ) :
    l.foldl max h = h ∨ l.foldl max h ∈ l := by
  induction l generalizing h with
  | nil => exact Or.inl rfl
  | cons x xs ih =>
    rw [List.foldl_cons]
    rcases ih (max h x) with heq | hmem
    · rcases max_choice h x with hh | hx
      · exact Or.inl (heq.trans hh)
      · refine Or.inr ?_
        rw [heq, hx]
        exact List.mem_cons_self x xs
    · exact Or.inr (List.mem_cons_of_mem _ hmem)

/-- `insertSorted` grows the length by one. -/
theorem length_insertSorted (x : ℚ) (l : List ℚ) :
    (insertSorted x l).length = l.length + 1 := by
  induction l with
  | nil => rfl
  | cons y ys ih =>
    rw [insertSorted]
    by_cases h : x ≤ y
    · rw [if_pos h]
      rfl
    · rw [if_neg h, List.length_cons, ih]
      rfl

/-- `sortQ` preserves length. -/
theorem length_sortQ (l : List ℚ) : (sortQ l).length = l.length := by
  induction l with
  | nil => rfl
  | cons x xs ih =>
    rw [sortQ, length_insertSorted, ih]
    rfl

/-- The JS sort of a list of real scores is the numeric sort, mapped back. -/
theorem jsSortNums_real (l : List ℚ) :
    jsSortNums (l.map Num.real) = (sortQ l).map Num.real := by
  unfold jsSortNums
  dsimp only
  have hfm : (l.map Num.real).filterMap toQ = l := by
    rw [List.filterMap_map]
    have hcomp : (toQ ∘ Num.real) = some := by
      funext q
      rfl
    rw [hcomp, List.filterMap_some]
  rw [hfm, List.length_map, Nat.sub_self, List.replicate_zero, List.append_nil]

/-- `getD` on a real-mapped list, within bounds. -/
theorem getD_map_real (l : List ℚ) (i : Nat) (hi : i < l.length) :
    (l.map Num.real).getD i Num.nan = Num.real (l.getD i 0) := by
  induction l generalizing i with
  | nil => simp at hi
  | cons x xs ih =>
    cases i with
    | zero => rfl
    | succ j =>
      rw [List.map_cons]
      show (xs.map Num.real).getD j Num.nan = Num.real (xs.getD j 0)
      exact ih j (Nat.lt_of_succ_lt_succ hi)

/-- The length of a `filterMap` counts the elements on which the function
succeeds. -/
theorem length_filterMap_eq_count {α β : Type} (f : α → Option β) (l : List α) :
    (l.filterMap f).length = (l.filter fun x => (f x).isSome).length := by
  induction l with
  | nil => rfl
  | cons x xs ih =>
    rw [List.filterMap_cons, List.filter_cons]
    cases hf : f x with
    | none => simp [hf, ih]
    | some y => simp [hf, ih]

/-- `computeStats` on a nonempty list of real scores: the fold-based fields
equal the textbook formulas — mean is the sum over the count, variance the
mean of squared deviations, median the element `⌊n/2⌋` of the sorted list,
min and max the fold extrema. -/
theorem computeStats_real (h0 : ℚ) (t : List ℚ) :
    (computeStats ((h0 :: t).map Num.real)).count = (h0 :: t).length
    ∧ (computeStats ((h0 :: t).map Num.real)).mean
        = Num.real ((h0 :: t).sum / (h0 :: t).length)
    ∧ (computeStats ((h0 :: t).map Num.real)).variance
        = Num.real (((h0 :: t).map fun x =>
            (x - (h0 :: t).sum / (h0 :: t).length) ^ 2).sum / (h0 :: t).length)
    ∧ (computeStats ((h0 :: t).map Num.real)).median
        = Num.real ((sortQ (h0 :: t)).getD ((h0 :: t).length / 2) 0)
    ∧ (computeStats ((h0 :: t).map Num.real)).min = Num.real (t.foldl min h0)
    ∧ (computeStats ((h0 :: t).map Num.real)).max = Num.real (t.foldl max h0) := by
  have hn : (h0 :: t).length ≠ 0 := by simp
  have hmean : jsDivN (((h0 :: t).map Num.real).foldl nadd (Num.real 0))
      ((h0 :: t).map Num.real).length = Num.real ((h0 :: t).sum / (h0 :: t).length) := by
    rw [foldl_nadd_real, List.length_map, jsDivN, if_neg hn, zero_add]
  refine ⟨?_, ?_, ?_, ?_, ?_, ?_⟩
  · unfold computeStats
    rw [List.length_map]
  · unfold computeStats
    exact hmean
  · unfold computeStats
    dsimp only
    rw [hmean, foldl_sqdev_real, List.length_map, jsDivN, if_neg hn, zero_add]
  · unfold computeStats
    dsimp only
    rw [jsSortNums_real, List.length_map]
    exact getD_map_real _ _ (by
      rw [length_sortQ]
      exact Nat.div_lt_self (by simp) (by norm_num))
  · unfold computeStats
    dsimp only
    rw [List.map_cons]
    exact foldl_nmin_real t h0
  · unfold computeStats
    dsimp only
    rw [List.map_cons]
    exact foldl_nmax_real t h0

/-- Claim C3: for every criterion code `c` that `getAggregateStats` reports
for a book (all of whose collected scores are real numbers), the reported
statistics are: count = the number of non-draft reviews carrying a score for
`c`; mean = the arithmetic mean; variance = the population variance (sum of
squared deviations over N, not N−1); median = element `⌊N/2⌋` of the sorted
score list (the upper-middle element for even N); and min/max the extrema of
the scores. -/
theorem C3_aggregate_stats (s : State) (bid : Nat) (c : String) (st : CritStats)
    (L' : List ℚ)
    (hnodup : ∀ r ∈ s.reviews, (r.scores.map Prod.fst).Nodup)
    (hst : (computeBookStats s bid).lookup c = some st)
    (hL : scoresFor s bid c = L'.map Num.real) :
    st.count = ((nonDraftReviews s bid).filter
        fun r => (r.scores.lookup c).isSome).length
    ∧ st.mean = Num.real (L'.sum / L'.length)
    ∧ st.variance = Num.real
        ((L'.map fun x => (x - L'.sum / L'.length) ^ 2).sum / L'.length)
    ∧ st.median = Num.real ((sortQ L').getD (L'.length / 2) 0)
    ∧ (∃ m, st.min = Num.real m ∧ m ∈ L' ∧ ∀ x ∈ L', m ≤ x)
    ∧ (∃ M, st.max = Num.real M ∧ M ∈ L' ∧ ∀ x ∈ L', x ≤ M) := by
  unfold computeBookStats at hst
  rw [lookup_map_value] at hst
  cases hlk : (collectScores (nonDraftReviews s bid)).lookup c with
  | none =>
    rw [hlk] at hst
    exact absurd hst (by simp)
  | some L =>
    rw [hlk, Option.map_some'] at hst
    injection hst with hst
    have hLne : L ≠ [] := by
      obtain ⟨k, hk⟩ := lookup_mem_values _ c L hlk
      exact collectScores_values_nonempty _ (k, L) hk
    have hLe : L = L'.map Num.real := by
      have h1 := getScores_eq_scoresFor s bid c hnodup
      rw [hL] at h1
      rw [← h1]
      unfold getScores
      rw [hlk]
      rfl
    obtain ⟨h0, t, rfl⟩ : ∃ h0 t, L' = h0 :: t := by
      cases hL' : L' with
      | nil =>
        rw [hL', List.map_nil] at hLe
        exact absurd hLe hLne
      | cons a b => exact ⟨a, b, rfl⟩
    obtain ⟨hcount, hmean, hvar, hmed, hmin, hmax⟩ := computeStats_real h0 t
    subst hst
    rw [hLe]
    refine ⟨?_, hmean, hvar, hmed, ?_, ?_⟩
    · rw [hcount, ← length_filterMap_eq_count]
      have : (h0 :: t).length = ((h0 :: t).map Num.real).length := by
        rw [List.length_map]
      rw [this, ← hL]
      rfl
    · exact ⟨t.foldl min h0, hmin, by
        rcases foldl_min_mem t h0 with he | hm
        · rw [he]; exact List.mem_cons_self _ _
        · exact List.mem_cons_of_mem _ hm,
        by
        intro x hx
        rcases List.mem_cons.mp hx with rfl | hm
        · exact foldl_min_le_seed t x
        · exact foldl_min_le_mem t x hm h0⟩
    · exact ⟨t.foldl max h0, hmax, by
        rcases foldl_max_mem t h0 with he | hm
        · rw [he]; exact List.mem_cons_self _ _
        · exact List.mem_cons_of_mem _ hm,
        by
        intro x hx
        rcases List.mem_cons.mp hx with rfl | hm
        · exact le_foldl_max_seed t x
        · exact le_foldl_max_mem t x hm h0⟩

/-- Witness for C3 on the spec's own scenario (scores 4 and 2 for CONT-1):
count 2, mean 3, variance 1, median 4 (the upper-middle element of [2, 4],
not 3). -/
theorem C3_witness :
    (⟨.real 3, .real 4, .real 1, .real 2, .real 4, 2⟩ : CritStats).count
      = ((nonDraftReviews c3S 3).filter
          fun r => (r.scores.lookup "CONT-1").isSome).length
    ∧ (⟨.real 3, .real 4, .real 1, .real 2, .real 4, 2⟩ : CritStats).mean
        = Num.real (([4, 2] : List ℚ).sum / ([4, 2] : List ℚ).length)
    ∧ (⟨.real 3, .real 4, .real 1, .real 2, .real 4, 2⟩ : CritStats).variance
        = Num.real ((([4, 2] : List ℚ).map fun x =>
            (x - ([4, 2] : List ℚ).sum / ([4, 2] : List ℚ).length) ^ 2).sum
          / ([4, 2] : List ℚ).length)
    ∧ (⟨.real 3, .real 4, .real 1, .real 2, .real 4, 2⟩ : CritStats).median
        = Num.real ((sortQ [4, 2]).getD (([4, 2] : List ℚ).length / 2) 0) := by
  obtain ⟨h1, h2, h3, h4, -, -⟩ := C3_aggregate_stats c3S 3 "CONT-1"
    ⟨.real 3, .real 4, .real 1, .real 2, .real 4, 2⟩ [4, 2]
    (by decide) (by with_unfolding_all decide) (by with_unfolding_all decide)
  exact ⟨h1, h2, h3, h4⟩

end TextbookReview
